import Mathlib

/-!
Shallow embedding of the Account REST microservice
(`src/service/routes.py`) and of its Account repository layer
(`service/models.py`, which is referenced by the routes and the tests but
is not itself part of this source tree; its operations are modelled from
the specification, §3, §4.2).

HTTP requests are modelled by their decoded pieces (the `Content-Type`
header as an `Option String`, the parsed JSON body as a record of optional
field values) and the relational store by an explicit `Store` value that
each handler threads through.  Python exception control flow is made
explicit: a handler's `try` block is a function into `Except Ex _`, and
the handler maps the `except KeyError` / `except Exception` clauses of
the source over the result.  Note that `werkzeug`'s `abort` raises an
`HTTPException`, which is a subclass of `Exception`, so a blanket
`except Exception` clause catches aborts raised inside its `try` block.
-/

namespace AccountService

/-- The persisted fields of an Account, apart from its id.
Modelled from the spec: `service/models.py` is not in the source tree;
§3 gives `name` plus the descriptive fields address, email, phone,
all "required by the deserialization contract". -/
structure AccountFields where
  name : String
  email : String
  address : String
  phone_number : String
deriving Repr, DecidableEq

/-- An Account row: a system-assigned integer id plus its fields
(spec §3: `id` (integer, unique, system-generated)). -/
structure Account where
  id : Nat
  fields : AccountFields
deriving Repr, DecidableEq

/-- The relational store backing the service: the Account rows plus the
next id the store will assign.  Modelled from the spec (§4.2, §6:
"one relational table holding Account rows", ids system-generated). -/
structure Store where
  rows : List Account
  nextId : Nat
deriving Repr, DecidableEq

/-- A parsed JSON request body for an Account: each expected key is
present with a string value or absent. -/
structure Body where
  name : Option String
  email : Option String
  address : Option String
  phone_number : Option String
deriving Repr, DecidableEq

/-- Python exceptions relevant to the routes: `werkzeug.exceptions.HTTPException`
carrying a status code (raised by `abort(code, ...)`) and `KeyError`
(raised by deserialization on a missing required key). -/
inductive Ex where
  | http (code : Nat)
  | keyError
deriving Repr, DecidableEq

/-- A JSON scalar value. -/
inductive JVal where
  | str : String → JVal
  | num : Nat → JVal
deriving Repr, DecidableEq

/-- A JSON response body: an object, an array of objects, or a plain text
body (used for the empty `""` body of DELETE and for error pages).  The
service only ever returns arrays of objects, so the array constructor
carries a list of objects directly. -/
inductive Json where
  | obj : List (String × JVal) → Json
  | arr : List (List (String × JVal)) → Json
  | text : String → Json
deriving Repr, DecidableEq

/-- An HTTP response: status code, body, and optional `Location` header. -/
structure Response where
  status : Nat
  body : Json
  location : Option String
deriving Repr, DecidableEq

/-- The response produced when an uncaught `abort(code, msg)` reaches Flask. -/
def errorResponse (code : Nat) (msg : String) : Response :=
  { status := code, body := Json.text msg, location := none }

/-- A JSON response with the given status and no `Location` header. -/
def jsonResponse (code : Nat) (b : Json) : Response :=
  { status := code, body := b, location := none }

/-- Modelled from the spec: `Account.serialize` of `service/models.py`
"converts the entity to/from a plain key-value representation for JSON
transport" (§4.2). -/
def Account.serializePairs (a : Account) : List (String × JVal) :=
  [ ("id", JVal.num a.id)
  , ("name", JVal.str a.fields.name)
  , ("email", JVal.str a.fields.email)
  , ("address", JVal.str a.fields.address)
  , ("phone_number", JVal.str a.fields.phone_number) ]

/-- The serialized account as a JSON object. -/
def Account.serialize (a : Account) : Json :=
  Json.obj a.serializePairs

/-- Modelled from the spec: `Account.deserialize` of `service/models.py`
"fails with a missing-field error when required keys are absent" (§4.2);
in Python terms a `KeyError`, as caught by the routes.  It sets every
field except `id` (§3: "all fields except id replaced from request
body"). -/
def deserialize (body : Body) : Except Ex AccountFields :=
  match body.name, body.email, body.address, body.phone_number with
  | some n, some e, some a, some p =>
      Except.ok { name := n, email := e, address := a, phone_number := p }
  | _, _, _, _ => Except.error Ex.keyError

/-- Modelled from the spec: `Account.create` of `service/models.py`
"inserts and assigns an id" (§4.2); the store assigns the next fresh id. -/
def Account.create (f : AccountFields) (s : Store) : Account × Store :=
  let a : Account := { id := s.nextId, fields := f }
  (a, { rows := s.rows ++ [a], nextId := s.nextId + 1 })

/-- Modelled from the spec: `Account.find(id)` of `service/models.py`
"returns the matching entity or a not-found sentinel" (§4.2). -/
def Account.find (account_id : Nat) (s : Store) : Option Account :=
  s.rows.find? (fun a => a.id == account_id)

/-- Modelled from the spec: `Account.update` of `service/models.py`
"persists in-place changes to an existing row" (§4.2): the row with the
entity's id is replaced by the entity. -/
def Account.update (a : Account) (s : Store) : Store :=
  { rows := s.rows.map (fun r => if r.id == a.id then a else r), nextId := s.nextId }

/-- Modelled from the spec: `Account.delete` of `service/models.py`
"removes a row if present" (§4.2). -/
def Account.delete (a : Account) (s : Store) : Store :=
  { rows := s.rows.filter (fun r => !(r.id == a.id)), nextId := s.nextId }

/-- Modelled from the spec: `Account.all()` of `service/models.py`
"returns every row" (§4.2). -/
def Account.all (s : Store) : List Account :=
  s.rows

/-- Embeds `check_content_type` (routes.py lines 167-176): Python's
`if content_type and content_type == media_type: return` accepts only a
present, non-empty header exactly equal to `media_type` (an empty string
is falsy in Python); `true` means the function returns, `false` means it
aborts 415. -/
def check_content_type (media_type : String) (content_type : Option String) : Bool :=
  match content_type with
  | some c => (c != "") && (c == media_type)
  | none => false

/-- Flask's `request.get_json()`: when the `Content-Type` header is not
`application/json` it raises a media-type error (an `HTTPException`,
415 in current Flask) instead of returning the parsed body.  Every route
calling it does so inside a `try ... except Exception` block, so which
exception class is raised does not change the observable status. -/
def get_json (content_type : Option String) (body : Body) : Except Ex Body :=
  if content_type = some "application/json" then Except.ok body
  else Except.error (Ex.http 415)

/-- Embeds `url_for("get_accounts", account_id=..., _external=True)`
(routes.py line 57): the URL of the `GET /accounts/{id}` route. -/
def location_url (account_id : Nat) : String :=
  "/accounts/" ++ toString account_id

/-- Embeds the `health` route (routes.py lines 18-22). -/
def health (s : Store) : Response × Store :=
  (jsonResponse 200 (Json.obj [("status", JVal.str "OK")]), s)

/-- Embeds the `try` block of `create_accounts` (routes.py lines 52-61):
deserialize the JSON body, create the row, respond 201 with the
serialized account and a `Location` header. -/
def create_accounts_try (content_type : Option String) (body : Body) (s : Store) :
    Except Ex (Response × Store) :=
  match get_json content_type body with
  | Except.error e => Except.error e
  | Except.ok data =>
    match deserialize data with
    | Except.error e => Except.error e
    | Except.ok f =>
      let (account, s') := Account.create f s
      Except.ok
        ({ status := 201, body := account.serialize
         , location := some (location_url account.id) }, s')

/-- Embeds `create_accounts` (routes.py lines 44-67): `check_content_type`
runs before the `try` block, so its `abort(415)` reaches Flask; inside
the `try`, a `KeyError` is answered with `abort(400)` and any other
exception with `abort(500)`. -/
def create_accounts (content_type : Option String) (body : Body) (s : Store) :
    Response × Store :=
  if check_content_type "application/json" content_type then
    match create_accounts_try content_type body s with
    | Except.ok r => r
    | Except.error Ex.keyError =>
        (errorResponse 400 "Invalid input: missing required fields", s)
    | Except.error (Ex.http _) =>
        (errorResponse 500 "Internal server error", s)
  else
    (errorResponse 415 "Content-Type must be application/json", s)

/-- Embeds `list_accounts` (routes.py lines 73-87): serialize every row,
respond 200; its `try` block has no exception source in this model. -/
def list_accounts (s : Store) : Response × Store :=
  (jsonResponse 200 (Json.arr ((Account.all s).map Account.serializePairs)), s)

/-- Embeds the `try` block of `get_accounts` (routes.py lines 100-105):
`abort(404)` when the id is not found, else 200 with the serialization. -/
def get_accounts_try (account_id : Nat) (s : Store) : Except Ex (Response × Store) :=
  match Account.find account_id s with
  | none => Except.error (Ex.http 404)
  | some account => Except.ok (jsonResponse 200 account.serialize, s)

/-- Embeds `get_accounts` (routes.py lines 93-108).  The `abort(404)` is
raised inside the `try` block and `HTTPException` is a subclass of
`Exception`, so the blanket `except Exception` clause catches it and
answers `abort(500)` instead. -/
def get_accounts (account_id : Nat) (s : Store) : Response × Store :=
  match get_accounts_try account_id s with
  | Except.ok r => r
  | Except.error _ => (errorResponse 500 "Internal server error", s)

/-- Embeds the `try` block of `update_accounts` (routes.py lines 121-132):
`abort(404)` when the id is not found, else parse and deserialize the
body (setting every field except `id`), persist, respond 200. -/
def update_accounts_try (account_id : Nat) (content_type : Option String)
    (body : Body) (s : Store) : Except Ex (Response × Store) :=
  match Account.find account_id s with
  | none => Except.error (Ex.http 404)
  | some account =>
    match get_json content_type body with
    | Except.error e => Except.error e
    | Except.ok data =>
      match deserialize data with
      | Except.error e => Except.error e
      | Except.ok f =>
        let account' : Account := { account with fields := f }
        Except.ok (jsonResponse 200 account'.serialize, Account.update account' s)

/-- Embeds `update_accounts` (routes.py lines 114-138): a `KeyError` from
deserialization is answered with `abort(400)`; every other exception —
including the `abort(404)` raised inside the `try` block and the
media-type error from `request.get_json()`, both `HTTPException`s and
hence `Exception`s — is answered with `abort(500)`.  Note the route never
calls `check_content_type`. -/
def update_accounts (account_id : Nat) (content_type : Option String)
    (body : Body) (s : Store) : Response × Store :=
  match update_accounts_try account_id content_type body s with
  | Except.ok r => r
  | Except.error Ex.keyError =>
      (errorResponse 400 "Invalid input: missing required fields", s)
  | Except.error (Ex.http _) =>
      (errorResponse 500 "Internal server error", s)

/-- Embeds `delete_accounts` (routes.py lines 144-161): delete the row if
found, respond 204 with an empty body either way; its `try` block has no
exception source in this model. -/
def delete_accounts (account_id : Nat) (s : Store) : Response × Store :=
  match Account.find account_id s with
  | some account => (jsonResponse 204 (Json.text ""), Account.delete account s)
  | none => (jsonResponse 204 (Json.text ""), s)

/-- One request against the CRUD surface, for stating invariants over
request sequences. -/
inductive Op where
  | post (content_type : Option String) (body : Body)
  | put (account_id : Nat) (content_type : Option String) (body : Body)
  | del (account_id : Nat)
  | read (account_id : Nat)
  | index
deriving Repr

/-- Dispatches one request to its handler. -/
def exec (op : Op) (s : Store) : Response × Store :=
  match op with
  | Op.post ct body => create_accounts ct body s
  | Op.put i ct body => update_accounts i ct body s
  | Op.del i => delete_accounts i s
  | Op.read i => get_accounts i s
  | Op.index => list_accounts s

/-- The store after a sequence of requests. -/
def execSeq (ops : List Op) (s : Store) : Store :=
  ops.foldl (fun s op => (exec op s).2) s

/-- The ids present in the store, in row order. -/
def idsOf (s : Store) : List Nat :=
  s.rows.map Account.id

/-- Store well-formedness: ids are pairwise distinct and the store's next
id is fresh (spec §3: `id` unique across all accounts, system-generated). -/
def StoreInv (s : Store) : Prop :=
  (idsOf s).Nodup ∧ ∀ a ∈ s.rows, a.id < s.nextId

instance : DecidablePred StoreInv := fun s => by
  unfold StoreInv
  infer_instance

/-! ### Helper lemmas about the repository operations -/

/-- A found account carries the id that was looked up and is a row of the
store. -/
theorem find_some_spec {i : Nat} {s : Store} {a : Account}
    (h : Account.find i s = some a) : a.id = i ∧ a ∈ s.rows := by
  unfold Account.find at h
  refine ⟨?_, List.mem_of_find?_eq_some h⟩
  have hp := List.find?_some h
  simpa using hp

/-- `find` misses exactly when no row carries the id. -/
theorem find_none_iff {i : Nat} {s : Store} :
    Account.find i s = none ↔ ∀ a ∈ s.rows, a.id ≠ i := by
  unfold Account.find
  rw [List.find?_eq_none]
  simp

/-- `delete_accounts` always answers 204 with an empty body and leaves
exactly the rows whose id differs from the requested one. -/
theorem delete_accounts_eq (i : Nat) (s : Store) :
    delete_accounts i s
      = (jsonResponse 204 (Json.text ""),
         { rows := s.rows.filter (fun r => !(r.id == i)), nextId := s.nextId }) := by
  unfold delete_accounts
  cases h : Account.find i s with
  | none =>
    have hall : ∀ a ∈ s.rows, a.id ≠ i := find_none_iff.mp h
    have hfa : s.rows.filter (fun r => !(r.id == i)) = s.rows := by
      rw [List.filter_eq_self]
      intro r hr
      simpa using hall r hr
    simp [hfa]
  | some a =>
    have hid : a.id = i := (find_some_spec h).1
    simp [Account.delete, hid]

/-- Reading one account never changes the store. -/
theorem get_accounts_store (i : Nat) (s : Store) : (get_accounts i s).2 = s := by
  unfold get_accounts get_accounts_try
  cases Account.find i s <;> rfl

/-- Listing accounts never changes the store. -/
theorem list_accounts_store (s : Store) : (list_accounts s).2 = s := rfl

/-- An empty store whose next assigned id is 1. -/
def emptyStore : Store := { rows := [], nextId := 1 }

/-- Concrete field values for test fixtures. -/
def fieldsA : AccountFields :=
  { name := "n", email := "e", address := "a", phone_number := "p" }

/-- A request body carrying every required field (matching `fieldsA`). -/
def fullBody : Body :=
  { name := some "n", email := some "e", address := some "a", phone_number := some "p" }

/-- A request body with the required `name` key absent. -/
def bodyMissingName : Body :=
  { name := none, email := some "e", address := some "a", phone_number := some "p" }

/-- A store holding the single account with id 1. -/
def store1 : Store := { rows := [{ id := 1, fields := fieldsA }], nextId := 2 }

/-- The store after `create_accounts`: unchanged on any failure, else the
new row is appended and the next id advances. -/
theorem create_accounts_store (ct : Option String) (body : Body) (s : Store) :
    (create_accounts ct body s).2 = s ∨
    ∃ f, deserialize body = Except.ok f ∧
      (create_accounts ct body s).2
        = { rows := s.rows ++ [{ id := s.nextId, fields := f }]
          , nextId := s.nextId + 1 } := by
  by_cases hc : check_content_type "application/json" ct = true
  · by_cases hj : ct = some "application/json"
    · have hg : get_json ct body = Except.ok body := by rw [get_json, if_pos hj]
      cases hd : deserialize body with
      | error e =>
        cases e <;>
          exact Or.inl (by simp [create_accounts, create_accounts_try, hc, hg, hd])
      | ok f =>
        exact Or.inr ⟨f, rfl,
          by simp [create_accounts, create_accounts_try, hc, hg, hd, Account.create]⟩
    · have hg : get_json ct body = Except.error (Ex.http 415) := by rw [get_json, if_neg hj]
      exact Or.inl (by simp [create_accounts, create_accounts_try, hc, hg])
  · exact Or.inl (by simp [create_accounts, hc])

/-- The store after `update_accounts`: unchanged on any failure, else the
found row is replaced by one with the same id and the deserialized
fields. -/
theorem update_accounts_store (i : Nat) (ct : Option String) (body : Body) (s : Store) :
    (update_accounts i ct body s).2 = s ∨
    ∃ a f, Account.find i s = some a ∧ deserialize body = Except.ok f ∧
      (update_accounts i ct body s).2 = Account.update { id := a.id, fields := f } s := by
  cases hf : Account.find i s with
  | none => exact Or.inl (by simp [update_accounts, update_accounts_try, hf])
  | some a =>
    by_cases hj : ct = some "application/json"
    · have hg : get_json ct body = Except.ok body := by rw [get_json, if_pos hj]
      cases hd : deserialize body with
      | error e =>
        cases e <;>
          exact Or.inl (by simp [update_accounts, update_accounts_try, hf, hg, hd])
      | ok f =>
        exact Or.inr ⟨a, f, rfl, rfl,
          by simp [update_accounts, update_accounts_try, hf, hg, hd]⟩
    · have hg : get_json ct body = Except.error (Ex.http 415) := by rw [get_json, if_neg hj]
      exact Or.inl (by simp [update_accounts, update_accounts_try, hf, hg])

/-- Full evaluation of a valid `POST /accounts`: 201, serialized body,
`Location` header, row appended with the store-assigned id. -/
theorem create_accounts_valid (body : Body) (s : Store) (f : AccountFields)
    (hd : deserialize body = Except.ok f) :
    create_accounts (some "application/json") body s
      = ({ status := 201, body := Account.serialize { id := s.nextId, fields := f }
         , location := some (location_url s.nextId) },
         { rows := s.rows ++ [{ id := s.nextId, fields := f }]
         , nextId := s.nextId + 1 }) := by
  have hg : get_json (some "application/json") body = Except.ok body := rfl
  simp [create_accounts, create_accounts_try, check_content_type, hg, hd, Account.create,
        Account.serialize, Account.serializePairs]

/-- Full evaluation of a valid `PUT /accounts/{id}` on an existing id:
200, serialized updated body, row replaced in place. -/
theorem update_accounts_valid (i : Nat) (body : Body) (s : Store)
    (a : Account) (f : AccountFields)
    (hf : Account.find i s = some a) (hd : deserialize body = Except.ok f) :
    update_accounts i (some "application/json") body s
      = (jsonResponse 200 (Account.serialize { id := i, fields := f }),
         Account.update { id := i, fields := f } s) := by
  have hid : a.id = i := (find_some_spec hf).1
  have hg : get_json (some "application/json") body = Except.ok body := rfl
  simp [update_accounts, update_accounts_try, hf, hg, hd, hid]

/-- A well-formed store has no row carrying the id it will assign next. -/
theorem find_nextId_none {s : Store} (h : StoreInv s) :
    Account.find s.nextId s = none := by
  rw [find_none_iff]
  intro a ha
  exact Nat.ne_of_lt (h.2 a ha)

/-- Replacing, by id, every matching row of a list keeps `find?` on that
id succeeding, now with the replacement. -/
theorem find?_map_replace {l : List Account} {i : Nat} {a b : Account}
    (hb : b.id = i)
    (h : l.find? (fun r => r.id == i) = some a) :
    (l.map (fun r => if r.id == i then b else r)).find? (fun r => r.id == i)
      = some b := by
  induction l with
  | nil => simp at h
  | cons r t ih =>
    by_cases hr : r.id = i
    · simp [hr, hb]
    · have hbeq : (r.id == i) = false := by simp [hr]
      rw [List.find?_cons_of_neg _ (by simp [hr])] at h
      simp only [List.map_cons, hbeq, Bool.false_eq_true, if_false]
      rw [List.find?_cons_of_neg _ (by simp [hr])]
      exact ih h

/-- After a valid update of id `i`, reading id `i` returns the updated
account. -/
theorem find_after_update {i : Nat} {s : Store} {a : Account} (f : AccountFields)
    (hf : Account.find i s = some a) :
    Account.find i (Account.update { id := i, fields := f } s)
      = some { id := i, fields := f } := by
  unfold Account.find at hf ⊢
  unfold Account.update
  exact find?_map_replace rfl hf

/-- Replacing rows by id leaves the list of ids unchanged. -/
theorem idsOf_update (b : Account) (s : Store) :
    idsOf (Account.update b s) = idsOf s := by
  unfold idsOf Account.update
  rw [List.map_map]
  congr 1
  funext r
  by_cases h : r.id = b.id
  · simp [h]
  · simp [h]

/-- `POST /accounts` preserves store well-formedness. -/
theorem storeInv_create (ct : Option String) (body : Body) (s : Store)
    (h : StoreInv s) : StoreInv (create_accounts ct body s).2 := by
  rcases create_accounts_store ct body s with heq | ⟨f, _, heq⟩
  · rw [heq]; exact h
  · rw [heq]
    refine ⟨?_, ?_⟩
    · show (List.map Account.id (s.rows ++ [{ id := s.nextId, fields := f }])).Nodup
      rw [List.map_append, List.nodup_append]
      refine ⟨h.1, by simp, ?_⟩
      intro x hx hx'
      rcases List.mem_map.mp hx with ⟨a, ha, rfl⟩
      have hlt := h.2 a ha
      simp at hx'
      omega
    · intro a ha
      rcases List.mem_append.mp ha with ha | ha
      · exact Nat.lt_succ_of_lt (h.2 a ha)
      · simp at ha
        rw [ha]
        exact Nat.lt_succ_self _

/-- `PUT /accounts/{id}` preserves store well-formedness. -/
theorem storeInv_update (i : Nat) (ct : Option String) (body : Body) (s : Store)
    (h : StoreInv s) : StoreInv (update_accounts i ct body s).2 := by
  rcases update_accounts_store i ct body s with heq | ⟨a, f, hf, _, heq⟩
  · rw [heq]; exact h
  · rw [heq]
    have hmem := (find_some_spec hf).2
    refine ⟨?_, ?_⟩
    · show (idsOf (Account.update { id := a.id, fields := f } s)).Nodup
      rw [idsOf_update]
      exact h.1
    · intro x hx
      rcases List.mem_map.mp hx with ⟨r, hr, rfl⟩
      by_cases hc : r.id = a.id
      · simp only [hc, beq_self_eq_true, if_true]
        exact h.2 a hmem
      · rw [if_neg (by simpa using hc)]
        exact h.2 r hr

/-- `DELETE /accounts/{id}` preserves store well-formedness. -/
theorem storeInv_delete (i : Nat) (s : Store) (h : StoreInv s) :
    StoreInv (delete_accounts i s).2 := by
  rw [delete_accounts_eq]
  refine ⟨?_, ?_⟩
  · show (List.map Account.id (s.rows.filter fun r => !(r.id == i))).Nodup
    exact h.1.sublist ((List.filter_sublist s.rows).map Account.id)
  · intro a ha
    exact h.2 a (List.mem_filter.mp ha).1

/-- Every single request preserves store well-formedness. -/
theorem storeInv_exec (op : Op) (s : Store) (h : StoreInv s) :
    StoreInv (exec op s).2 := by
  cases op with
  | post ct body => exact storeInv_create ct body s h
  | put i ct body => exact storeInv_update i ct body s h
  | del i => exact storeInv_delete i s h
  | read i =>
    show StoreInv (get_accounts i s).2
    rw [get_accounts_store]
    exact h
  | index => exact h

/-- Every request sequence preserves store well-formedness. -/
theorem storeInv_execSeq (ops : List Op) (s : Store) (h : StoreInv s) :
    StoreInv (execSeq ops s) := by
  induction ops generalizing s with
  | nil => exact h
  | cons op t ih => exact ih _ (storeInv_exec op s h)

/-! ### Claim theorems -/

/-- C1: the claim is refuted as stated.  For an id absent from the store,
`GET /accounts/{id}` and `PUT /accounts/{id}` respond 500, not 404: the
`abort(404)` raised inside each route's `try` block is an `HTTPException`,
a subclass of `Exception`, so the route's own blanket `except Exception`
clause catches it and aborts 500.  The store is indeed left unmodified. -/
theorem missing_id_get_put_respond_500 :
    (get_accounts 1 emptyStore).1.status = 500 ∧
    (update_accounts 1 (some "application/json") fullBody emptyStore).1.status = 500 ∧
    (get_accounts 1 emptyStore).2 = emptyStore ∧
    (update_accounts 1 (some "application/json") fullBody emptyStore).2 = emptyStore := by
  decide

/-- C2: the claim is refuted for PUT.  `POST /accounts` with a wrong
`Content-Type` responds 415 (`check_content_type` runs before the `try`
block), but `update_accounts` never calls `check_content_type`: the
media-type failure surfaces from `request.get_json()` inside the `try`
block and the blanket `except Exception` clause turns it into 500. -/
theorem post_wrong_type_415_put_wrong_type_500 :
    (create_accounts (some "text/html") fullBody emptyStore).1.status = 415 ∧
    (update_accounts 1 (some "text/html") fullBody store1).1.status = 500 ∧
    (update_accounts 1 (some "text/html") fullBody store1).1.status ≠ 415 := by
  decide

/-- C3: `DELETE /accounts/{id}` always responds 204 with an empty body;
an existing row with that id is removed, a missing id leaves exactly the
same rows, and a second DELETE of the same id returns the same response
and the same store (idempotence). -/
theorem delete_always_204_idempotent (i : Nat) (s : Store) :
    (delete_accounts i s).1 = jsonResponse 204 (Json.text "") ∧
    (delete_accounts i s).2.rows = s.rows.filter (fun r => !(r.id == i)) ∧
    (delete_accounts i s).2.nextId = s.nextId ∧
    Account.find i (delete_accounts i s).2 = none ∧
    delete_accounts i (delete_accounts i s).2 = delete_accounts i s := by
  have h := delete_accounts_eq i s
  refine ⟨by rw [h], by rw [h], by rw [h], ?_, ?_⟩
  · rw [h]
    refine find_none_iff.mpr ?_
    intro a ha
    simpa using (List.mem_filter.mp ha).2
  · rw [h]
    show delete_accounts i
        ({ rows := s.rows.filter (fun r => !(r.id == i)), nextId := s.nextId } : Store)
      = (jsonResponse 204 (Json.text ""),
         { rows := s.rows.filter (fun r => !(r.id == i)), nextId := s.nextId })
    rw [delete_accounts_eq]
    have hff : (s.rows.filter (fun r => !(r.id == i))).filter (fun r => !(r.id == i))
        = s.rows.filter (fun r => !(r.id == i)) :=
      List.filter_eq_self.mpr (fun a ha => (List.mem_filter.mp ha).2)
    simp [hff]

/-- C4: a `POST /accounts` with JSON content type whose body misses a
required field responds 400 and leaves the store unchanged (the
`KeyError` from deserialization is caught by `except KeyError`, which
aborts 400 before `account.create()` runs). -/
theorem post_missing_required_field_400 (body : Body) (s : Store)
    (h : body.name = none ∨ body.email = none ∨ body.address = none ∨
         body.phone_number = none) :
    create_accounts (some "application/json") body s
      = (errorResponse 400 "Invalid input: missing required fields", s) := by
  have hd : deserialize body = Except.error Ex.keyError := by
    unfold deserialize
    rcases h with h | h | h | h <;>
      cases hn : body.name <;> cases he : body.email <;>
      cases ha : body.address <;> cases hp : body.phone_number <;>
      simp_all
  have hg : get_json (some "application/json") body = Except.ok body := rfl
  simp [create_accounts, create_accounts_try, check_content_type, hg, hd]

/-- C4 witness: a concrete body with the `name` key absent yields 400 on
the empty store. -/
theorem post_missing_required_field_400_witness :
    (bodyMissingName.name = none ∨ bodyMissingName.email = none ∨
     bodyMissingName.address = none ∨ bodyMissingName.phone_number = none) ∧
    create_accounts (some "application/json") bodyMissingName emptyStore
      = (errorResponse 400 "Invalid input: missing required fields", emptyStore) :=
  ⟨Or.inl rfl, post_missing_required_field_400 bodyMissingName emptyStore (Or.inl rfl)⟩

/-- C5: a `POST /accounts` with JSON content type and all required fields
responds 201, with the serialized created account (carrying the
store-assigned id) as body and a `Location` header for that id, the row
is appended, and `GET` on the new id resolves to the created account. -/
theorem post_valid_fields_201_location (body : Body) (s : Store) (f : AccountFields)
    (hinv : StoreInv s) (hd : deserialize body = Except.ok f) :
    (create_accounts (some "application/json") body s).1
      = { status := 201, body := Account.serialize { id := s.nextId, fields := f }
        , location := some (location_url s.nextId) } ∧
    (create_accounts (some "application/json") body s).2
      = { rows := s.rows ++ [{ id := s.nextId, fields := f }], nextId := s.nextId + 1 } ∧
    (get_accounts s.nextId (create_accounts (some "application/json") body s).2).1
      = jsonResponse 200 (Account.serialize { id := s.nextId, fields := f }) := by
  have he := create_accounts_valid body s f hd
  refine ⟨by rw [he], by rw [he], ?_⟩
  rw [he]
  have hfind : Account.find s.nextId
      ({ rows := s.rows ++ [{ id := s.nextId, fields := f }]
       , nextId := s.nextId + 1 } : Store)
      = some { id := s.nextId, fields := f } := by
    unfold Account.find
    rw [List.find?_append]
    have h1 : s.rows.find? (fun a => a.id == s.nextId) = none := by
      have h2 := find_nextId_none hinv
      unfold Account.find at h2
      exact h2
    rw [h1]
    simp
  unfold get_accounts get_accounts_try
  rw [hfind]

/-- C5 witness: posting a full body on the empty store creates account 1
with its Location header. -/
theorem post_valid_fields_201_location_witness :
    StoreInv emptyStore ∧ deserialize fullBody = Except.ok fieldsA ∧
    (create_accounts (some "application/json") fullBody emptyStore).1
      = { status := 201, body := Account.serialize { id := 1, fields := fieldsA }
        , location := some (location_url 1) } :=
  ⟨by decide, rfl,
   (post_valid_fields_201_location fullBody emptyStore fieldsA (by decide) rfl).1⟩

/-- C6: a `PUT /accounts/{id}` on an existing id with JSON content type
and a body with all required fields responds 200 with the updated
representation, and a subsequent `GET /accounts/{id}` returns exactly the
updated field values. -/
theorem put_existing_valid_200_persists (i : Nat) (body : Body) (s : Store)
    (a : Account) (f : AccountFields)
    (hf : Account.find i s = some a) (hd : deserialize body = Except.ok f) :
    (update_accounts i (some "application/json") body s).1
      = jsonResponse 200 (Account.serialize { id := i, fields := f }) ∧
    (get_accounts i (update_accounts i (some "application/json") body s).2).1
      = jsonResponse 200 (Account.serialize { id := i, fields := f }) := by
  have he := update_accounts_valid i body s a f hf hd
  refine ⟨by rw [he], ?_⟩
  rw [he]
  have hfind := find_after_update f hf
  unfold get_accounts get_accounts_try
  rw [hfind]

/-- C6 witness: updating account 1 of `store1` with the full body yields
200 with the updated representation. -/
theorem put_existing_valid_200_persists_witness :
    Account.find 1 store1 = some { id := 1, fields := fieldsA } ∧
    deserialize fullBody = Except.ok fieldsA ∧
    (update_accounts 1 (some "application/json") fullBody store1).1
      = jsonResponse 200 (Account.serialize { id := 1, fields := fieldsA }) :=
  ⟨rfl, rfl,
   (put_existing_valid_200_persists 1 fullBody store1 { id := 1, fields := fieldsA }
      fieldsA rfl rfl).1⟩

/-- C7: ids are immutable and unique.  Every request sequence preserves
the invariant that ids are pairwise distinct (and fresh below the next
assigned id); a valid PUT replaces, in place, every field of the target
row except its id; POST leaves all existing rows unchanged as a prefix;
DELETE only removes rows, never altering one. -/
theorem account_id_immutable_and_unique :
    (∀ ops s, StoreInv s → StoreInv (execSeq ops s)) ∧
    (∀ i body s a f, Account.find i s = some a →
      deserialize body = Except.ok f →
      (update_accounts i (some "application/json") body s).2.rows
        = s.rows.map (fun r => if r.id == i then { id := i, fields := f } else r)) ∧
    (∀ ct body s, ((create_accounts ct body s).2.rows).take s.rows.length = s.rows) ∧
    (∀ i s a, a ∈ (delete_accounts i s).2.rows → a ∈ s.rows) := by
  refine ⟨storeInv_execSeq, ?_, ?_, ?_⟩
  · intro i body s a f hf hd
    rw [update_accounts_valid i body s a f hf hd]
    rfl
  · intro ct body s
    rcases create_accounts_store ct body s with heq | ⟨f, _, heq⟩
    · rw [heq, List.take_length]
    · rw [heq]
      exact List.take_left s.rows _
  · intro i s a ha
    rw [delete_accounts_eq] at ha
    exact (List.mem_filter.mp ha).1

/-- C7 witness: starting from the well-formed empty store, a POST
followed by a DELETE preserves the id-uniqueness invariant. -/
theorem account_id_immutable_and_unique_witness :
    StoreInv emptyStore ∧
    StoreInv (execSeq
      [Op.post (some "application/json") fullBody, Op.del 1] emptyStore) :=
  ⟨by decide, account_id_immutable_and_unique.1 _ emptyStore (by decide)⟩

/-- C8: `GET /health` responds 200 with exactly the JSON object mapping
"status" to "OK", whatever the store holds, and leaves the store
unchanged. -/
theorem health_always_ok (s : Store) :
    health s = ({ status := 200, body := Json.obj [("status", JVal.str "OK")]
                , location := none }, s) := rfl

/-- C9: `check_content_type` accepts exactly a present header equal to
"application/json"; a charset-qualified value or an absent header is
rejected, and POST answers 415 in those cases. -/
theorem check_content_type_exact_match :
    (∀ ct, check_content_type "application/json" ct
        = (ct == some "application/json")) ∧
    check_content_type "application/json" (some "application/json; charset=utf-8")
      = false ∧
    check_content_type "application/json" none = false ∧
    (∀ body s,
      (create_accounts (some "application/json; charset=utf-8") body s).1.status
        = 415) ∧
    (∀ body s, (create_accounts none body s).1.status = 415) := by
  refine ⟨?_, rfl, rfl, fun body s => rfl, fun body s => rfl⟩
  intro ct
  cases ct with
  | none => rfl
  | some c =>
    by_cases hc : c = "application/json"
    · subst hc
      rfl
    · have h1 : (c == "application/json") = false := by
        cases hcb : c == "application/json"
        · rfl
        · exact absurd (eq_of_beq hcb) hc
      have h2 : (some c == some "application/json") = false := h1
      simp [check_content_type, h1, h2]

/-- C10: `GET /accounts` and `GET /accounts/{id}` never modify the store,
whatever status they return. -/
theorem list_and_read_do_not_modify_store (s : Store) (i : Nat) :
    (list_accounts s).2 = s ∧ (get_accounts i s).2 = s :=
  ⟨list_accounts_store s, get_accounts_store i s⟩

end AccountService
